import Mathlib

/-!
Shallow embedding of the sandrun scheduling core, translated from the
Python sources:

* `src/job_queue.py`   — `Job`, `JobQueue` (enqueue / run / cancel / restart / delete)
* `src/rate_limiter.py` — `RateLimiter` (per-caller sliding-window admission)
* `src/routes.py`      — the secret-based authorization guard shared by the routes
* `src/integrations/trusted-pool/coordinator.py` — `TrustedPoolCoordinator.get_job_status`

Modelling conventions:

* Stateful methods become pure functions `state → state × result`; `self`
  mutations that survive a raised exception (Python semantics) are reflected
  by returning the mutated state together with the error.
* External effects (useradd, userdel, pkill, makedirs, rmtree, thread-pool
  submission) are recorded in effect lists on the state; outcomes of external
  processes (exit codes, spawned-command results, HTTP replies) are inputs.
* Python dicts are insertion-ordered association lists; `find_assoc` is dict
  lookup, `set_assoc` in-place update, `del_assoc` deletion.  Python `set`
  is `Finset String`.
* Timestamps and CPU-second quantities are modelled as `Int`.  The Python
  code holds them as floats, but every operation the rate limiter performs
  on them is comparison, addition and subtraction, so the embedding is the
  same term for any linearly ordered additive model; exact integers keep
  every definition decidable.
-/

set_option autoImplicit false

deriving instance DecidableEq for Except

namespace Sandrun

/-! ### Association lists: the model of Python dicts -/

def find_assoc {β : Type} : List (String × β) → String → Option β
  | [], _ => none
  | (k, v) :: rest, key => if k = key then some v else find_assoc rest key

def set_assoc {β : Type} : List (String × β) → String → β → List (String × β)
  | [], _, _ => []
  | (k, v0) :: rest, key, v =>
    if k = key then (key, v) :: set_assoc rest key v
    else (k, v0) :: set_assoc rest key v

def del_assoc {β : Type} (l : List (String × β)) (key : String) :
    List (String × β) :=
  l.filter (fun p => p.1 ≠ key)

theorem find_assoc_set_assoc_of_found {β : Type} (l : List (String × β))
    (key : String) (u v : β) (h : find_assoc l key = some u) :
    find_assoc (set_assoc l key v) key = some v := by
  induction l with
  | nil => simp [find_assoc] at h
  | cons p rest ih =>
    obtain ⟨k0, v0⟩ := p
    by_cases hk : k0 = key
    · subst hk
      simp [find_assoc, set_assoc]
    · rw [find_assoc, if_neg hk] at h
      rw [set_assoc, if_neg hk, find_assoc, if_neg hk]
      exact ih h

theorem find_assoc_set_assoc_ne {β : Type} (l : List (String × β))
    (key key' : String) (v : β) (h : key' ≠ key) :
    find_assoc (set_assoc l key v) key' = find_assoc l key' := by
  induction l with
  | nil => simp [set_assoc, find_assoc]
  | cons p rest ih =>
    obtain ⟨k0, v0⟩ := p
    by_cases hk : k0 = key
    · subst hk
      rw [set_assoc, if_pos rfl, find_assoc, if_neg (Ne.symm h),
        find_assoc, if_neg (Ne.symm h)]
      exact ih
    · rw [set_assoc, if_neg hk, find_assoc, find_assoc]
      by_cases hk' : k0 = key'
      · simp [hk']
      · rw [if_neg hk', if_neg hk']
        exact ih

theorem find_assoc_del_assoc_self {β : Type} (l : List (String × β))
    (key : String) : find_assoc (del_assoc l key) key = none := by
  induction l with
  | nil => simp [del_assoc, find_assoc]
  | cons p rest ih =>
    obtain ⟨k0, v0⟩ := p
    by_cases hk : k0 = key
    · subst hk
      simpa [del_assoc, find_assoc] using ih
    · simpa [del_assoc, find_assoc, hk] using ih

theorem find_assoc_append_fresh {β : Type} (l : List (String × β))
    (key : String) (v : β) (h : find_assoc l key = none) :
    find_assoc (l ++ [(key, v)]) key = some v := by
  induction l with
  | nil => simp [find_assoc]
  | cons p rest ih =>
    obtain ⟨k0, v0⟩ := p
    by_cases hk : k0 = key
    · simp [find_assoc, hk] at h
    · simp only [find_assoc, if_neg hk] at h
      simpa [find_assoc, if_neg hk] using ih h

/-! ### Generic list lemmas used for the sliding windows -/

theorem dropWhile_head_false {α : Type} (p : α → Bool) (l : List α)
    (a : α) (t : List α) (h : l.dropWhile p = a :: t) : p a = false := by
  induction l with
  | nil => simp [List.dropWhile] at h
  | cons x xs ih =>
    rw [List.dropWhile] at h
    cases hx : p x with
    | true => rw [hx] at h; exact ih h
    | false => rw [hx] at h; cases h; exact hx

theorem filter_dropWhile_eq {α : Type} (p q : α → Bool) (l : List α)
    (h : ∀ a, p a = true → q a = false) :
    (l.dropWhile p).filter q = l.filter q := by
  induction l with
  | nil => simp
  | cons x xs ih =>
    rw [List.dropWhile]
    cases hx : p x with
    | true => rw [List.filter_cons, h x hx, ih]; simp
    | false => simp [List.dropWhile]

theorem mem_dropWhile_append {α : Type} (p : α → Bool) (l : List α) (a : α)
    (h : p a = false) : a ∈ (l ++ [a]).dropWhile p := by
  induction l with
  | nil => simp [List.dropWhile, h]
  | cons x xs ih =>
    rw [List.cons_append, List.dropWhile]
    cases hx : p x with
    | true => exact ih
    | false => simp

theorem sum_filter_le_sum (q : Int × Int → Bool) (l : List (Int × Int))
    (h : ∀ s ∈ l, 0 ≤ s.2) :
    ((l.filter q).map Prod.snd).sum ≤ (l.map Prod.snd).sum := by
  induction l with
  | nil => simp
  | cons x xs ih =>
    have hx : 0 ≤ x.2 := h x (List.mem_cons_self x xs)
    have hxs : ∀ s ∈ xs, 0 ≤ s.2 := fun s hs => h s (List.mem_cons_of_mem x hs)
    rw [List.filter_cons]
    cases hq : q x with
    | true =>
      rw [if_pos rfl]
      simp only [List.map_cons, List.sum_cons]
      have := ih hxs
      omega
    | false =>
      rw [if_neg Bool.false_ne_true]
      simp only [List.map_cons, List.sum_cons]
      have := ih hxs
      omega

/-! ### The `Job` record and queue state (`src/job_queue.py`) -/

/-- Translation of `Job.__init__`: a job record.  The uuid-generated
identifiers (`job_id`, `ephemeral_user`, `directory`) are inputs of the
constructor model `mk_job` below, and the SHA-256 `hash_secret` is a
parameter of every definition that uses it. -/
structure Job where
  job_id : String
  ephemeral_user : String
  directory : String
  command : List String
  status : String
  logs : String
  hashed_secret : Option String
deriving DecidableEq

/-- Translation of `Job.__init__`, with the three freshly generated uuid
names passed in.  `hashed_secret` follows the source line
`hash_secret(secret) if secret else None`: a `None` or empty-string secret
(both falsy in Python) stores no hash. -/
def mk_job (hash_secret : String → String) (job_id ephemeral_user directory : String)
    (command : List String) (secret : Option String) : Job :=
  { job_id, ephemeral_user, directory, command,
    status := "queued", logs := "",
    hashed_secret :=
      match secret with
      | some s => if s = "" then none else some (hash_secret s)
      | none => none }

/-- State of a `JobQueue` plus the externally visible effects it has issued.
`jobs` is the in-memory dict, `ledger` the contents of the JSON storage file
(rewritten in full by `_save_jobs`), `scheduled` the job ids handed to the
thread pool, and the remaining lists record the `useradd` / `userdel` /
`pkill` / `makedirs` / `rmtree` commands issued, in order. -/
structure QState where
  jobs : List (String × Job)
  ledger : List (String × Job)
  scheduled : List String
  created_users : List String
  deleted_users : List String
  pkilled_users : List String
  dirs_made : List String
  dirs_removed : List String
deriving DecidableEq

/-- Translation of `JobQueue._save_jobs`: rewrite the whole storage file
from the in-memory table. -/
def save_jobs (st : QState) : QState :=
  { st with ledger := st.jobs }

/-- Translation of `JobQueue.enqueue`.  The job record (with its fresh
uuids) is the `job` argument; `create_user_ok` is whether the external
`sudo useradd` succeeds (`_create_user` runs it with `check=True`, so a
failure raises and aborts the submission).  The mutated state is returned
even on the error path, because in the source `self.jobs` was updated and
persisted before `_create_user` runs. -/
def enqueue (st : QState) (job : Job) (create_user_ok : Bool) :
    QState × Except String String :=
  let st1 := save_jobs { st with jobs := st.jobs ++ [(job.job_id, job)] }
  let st2 := { st1 with dirs_made := st1.dirs_made ++ [job.directory] }
  if create_user_ok then
    ({ st2 with
        created_users := st2.created_users ++ [job.ephemeral_user],
        scheduled := st2.scheduled ++ [job.job_id] },
     Except.ok job.job_id)
  else
    (st2, Except.error "useradd failed")

/-- Translation of `JobQueue._run_job`, executed by the worker pool for a
scheduled job id.  `outcome` is the result of spawning
`sudo -u <user> <command>`: `Except.error msg` when `Popen`/`communicate`
raises, otherwise `Except.ok (stdout, exit_code)`.  An absent job id (a
`KeyError` in the source) leaves the state unchanged.  The `finally` block
always persists and then runs `userdel` on the job's ephemeral user. -/
def run_job (st : QState) (job_id : String)
    (outcome : Except String (String × Int)) : QState :=
  match find_assoc st.jobs job_id with
  | none => st
  | some job =>
    let running : Job := { job with status := "running" }
    let st1 := save_jobs { st with jobs := set_assoc st.jobs job_id running }
    let final : Job :=
      match outcome with
      | Except.ok (stdout, exit_code) =>
        if exit_code = 0 then
          { running with logs := stdout, status := "completed" }
        else
          { running with logs := stdout ++ "\n[Error] Non-zero return code.",
                         status := "failed" }
      | Except.error msg =>
        { running with status := "failed",
                       logs := running.logs ++ "\n[Exception] " ++ msg }
    let st2 := save_jobs { st1 with jobs := set_assoc st1.jobs job_id final }
    { st2 with deleted_users := st2.deleted_users ++ [job.ephemeral_user] }

/-- Translation of `JobQueue.delete_job`.  `dir_exists` is the
`os.path.exists(job.directory)` probe; `rmtree` runs with
`ignore_errors=True`. -/
def delete_job (st : QState) (job_id : String) (dir_exists : Bool) :
    QState × Except String Unit :=
  match find_assoc st.jobs job_id with
  | none => (st, Except.error "Job not found.")
  | some job =>
    if job.status = "running" then
      (st, Except.error "Cannot delete a running job. Cancel it first.")
    else
      let st1 := save_jobs { st with jobs := del_assoc st.jobs job_id }
      if dir_exists then
        ({ st1 with dirs_removed := st1.dirs_removed ++ [job.directory] },
         Except.ok ())
      else (st1, Except.ok ())

/-- Translation of `JobQueue.cancel_job`.  `pkill_returncode` is the exit
status of `sudo pkill -u <user>` (run with `check=False`); a non-zero code
makes the source raise, re-wrapped by its own `except` clause, without
marking the job cancelled.  The queue never waits for the signalled
processes to die: no process-death information is an input of this
function. -/
def cancel_job (st : QState) (job_id : String) (pkill_returncode : Int) :
    QState × Except String Unit :=
  match find_assoc st.jobs job_id with
  | none => (st, Except.error "Job not found.")
  | some job =>
    if job.status ≠ "running" then
      (st, Except.error "Job is not running.")
    else
      let st1 := { st with pkilled_users := st.pkilled_users ++ [job.ephemeral_user] }
      if pkill_returncode ≠ 0 then
        (st1, Except.error "Error canceling job: Failed to cancel job.")
      else
        (save_jobs { st1 with
            jobs := set_assoc st1.jobs job_id { job with status := "cancelled" } },
         Except.ok ())

/-- Translation of `JobQueue.restart_job`.  Note that the source reuses
`job.directory` and `job.ephemeral_user` verbatim: `os.makedirs` and
`_create_user` are called on the names the job already had, and no new
uuid is generated.  `create_user_ok` is the `sudo useradd` outcome, as in
`enqueue`. -/
def restart_job (st : QState) (job_id : String) (create_user_ok : Bool) :
    QState × Except String Unit :=
  match find_assoc st.jobs job_id with
  | none => (st, Except.error "Job not found.")
  | some job =>
    if job.status ≠ "cancelled" then
      (st, Except.error "Job is not cancelled.")
    else
      let st1 := save_jobs
        { st with jobs := set_assoc st.jobs job_id { job with status := "queued" } }
      let st2 := { st1 with dirs_made := st1.dirs_made ++ [job.directory] }
      if create_user_ok then
        ({ st2 with
            created_users := st2.created_users ++ [job.ephemeral_user],
            scheduled := st2.scheduled ++ [job_id] },
         Except.ok ())
      else (st2, Except.error "useradd failed")

/-! ### The secret guard of the routes (`src/routes.py`) -/

/-- Python truthiness of an `Optional[str]`: `None` and the empty string
are falsy. -/
def py_truthy : Option String → Bool
  | none => false
  | some s => decide (s ≠ "")

/-- Translation of the authorization block repeated verbatim in the
`get_job`, `get_job_status`, `get_job_logs`, `delete_job`, `cancel_job`
and `download_job_tarball` routes: if the stored hash is truthy, a missing
(falsy) presented secret or a hash mismatch raises a 403
`HTTPException`.  Returns the raised `(status_code, detail)` or `none`
when access is allowed. -/
def auth_guard (hash_secret : String → String)
    (stored presented : Option String) : Option (Nat × String) :=
  if py_truthy stored then
    if py_truthy presented = false then
      some (403, "This job is protected by a secret.")
    else if hash_secret (presented.getD "") ≠ stored.getD "" then
      some (403, "Invalid secret.")
    else none
  else none

/-- Translation of the `get_job` route: 404 on an unknown id, then the
shared secret guard, then the job's details. -/
def get_job_route (hash_secret : String → String) (st : QState)
    (job_id : String) (presented : Option String) :
    Except (Nat × String) Job :=
  match find_assoc st.jobs job_id with
  | none => Except.error (404, "Job not found")
  | some job =>
    match auth_guard hash_secret job.hashed_secret presented with
    | some e => Except.error e
    | none => Except.ok job

/-! ### The rate limiter (`src/rate_limiter.py`)

The `RateLimiter` dicts are keyed by caller IP and `defaultdict` gives an
independent fresh value per key, so the model is the state of one caller:
`cpu_usage` is that caller's deque of `(timestamp, cpu_seconds)` samples,
`active_jobs` its set of job ids, `job_history` its deque of submission
timestamps and `last_seen` its entry of the `last_seen` dict. -/

structure RLConfig where
  cpu_seconds_per_minute : Int
  max_concurrent_jobs : Nat
  max_jobs_per_hour : Nat
deriving DecidableEq

structure RLState where
  cpu_usage : List (Int × Int)
  active_jobs : Finset String
  job_history : List Int
  last_seen : Option Int
deriving DecidableEq

/-- Translation of `RateLimiter._cleanup_old_entries`: pop entries from
the front of each deque while they are strictly older than the window
bound (`< now - 60` resp. `< now - 3600`). -/
def cleanup_old_entries (st : RLState) (now : Int) : RLState :=
  { st with
    cpu_usage := st.cpu_usage.dropWhile (fun s => decide (s.1 < now - 60)),
    job_history := st.job_history.dropWhile (fun t => decide (t < now - 3600)) }

/-- The sum in `can_submit_job`:
`sum(cpu for t, cpu in self.cpu_usage[ip] if t > minute_ago)`. -/
def recent_cpu_sum (cpu_usage : List (Int × Int)) (now : Int) : Int :=
  ((cpu_usage.filter (fun s => decide (s.1 > now - 60))).map Prod.snd).sum

/-- The count in `can_submit_job`:
`len([t for t in self.job_history[ip] if t > hour_ago])`. -/
def recent_jobs_count (job_history : List Int) (now : Int) : Nat :=
  (job_history.filter (fun t => decide (t > now - 3600))).length

/-- Structured rendering of the `(bool, Optional[str])` returned by
`can_submit_job`.  Each rejection constructor corresponds to one reason
string of the source (`"Max {n} concurrent jobs"`, `"Max {n} jobs per
hour"`, `"CPU quota exceeded, wait {w}s"`); `cpu_index_error` is the
`IndexError` the source hits when the CPU check fires with an empty
deque. -/
inductive SubmitDecision where
  | allowed : SubmitDecision
  | rejected_concurrent : Nat → SubmitDecision
  | rejected_hourly : Nat → SubmitDecision
  | rejected_cpu : Int → SubmitDecision
  | cpu_index_error : SubmitDecision
deriving DecidableEq

/-- Translation of `RateLimiter.can_submit_job`: record `last_seen`, then
the three checks in source order — concurrency first (before any
cleanup), then the hourly window, then the CPU window whose wait time is
`60 - (now - self.cpu_usage[ip][0][0])`, the head of the deque after
cleanup. -/
def can_submit_job (cfg : RLConfig) (st : RLState) (now : Int) :
    RLState × SubmitDecision :=
  let st0 := { st with last_seen := some now }
  if st0.active_jobs.card ≥ cfg.max_concurrent_jobs then
    (st0, SubmitDecision.rejected_concurrent cfg.max_concurrent_jobs)
  else
    let st1 := cleanup_old_entries st0 now
    if recent_jobs_count st1.job_history now ≥ cfg.max_jobs_per_hour then
      (st1, SubmitDecision.rejected_hourly cfg.max_jobs_per_hour)
    else
      if recent_cpu_sum st1.cpu_usage now ≥ cfg.cpu_seconds_per_minute then
        match st1.cpu_usage with
        | s :: _ => (st1, SubmitDecision.rejected_cpu (60 - (now - s.1)))
        | [] => (st1, SubmitDecision.cpu_index_error)
      else (st1, SubmitDecision.allowed)

/-- Translation of `RateLimiter.register_job_start`. -/
def register_job_start (st : RLState) (job_id : String) (now : Int) : RLState :=
  { st with
    active_jobs := insert job_id st.active_jobs,
    job_history := st.job_history ++ [now],
    last_seen := some now }

/-- Translation of `RateLimiter.register_job_end`: `set.discard` (an
idempotent removal that never raises), an unconditional append of the
`(now, cpu_seconds)` sample, then lazy cleanup. -/
def register_job_end (st : RLState) (job_id : String) (cpu_seconds : Int)
    (now : Int) : RLState :=
  cleanup_old_entries
    { st with
      active_jobs := st.active_jobs.erase job_id,
      cpu_usage := st.cpu_usage ++ [(now, cpu_seconds)],
      last_seen := some now } now

/-! ### The pool coordinator (`src/integrations/trusted-pool/coordinator.py`) -/

structure Worker where
  worker_id : String
  endpoint : String
  last_health_check : Int
  is_healthy : Bool
  active_jobs : Nat
  max_concurrent_jobs : Nat
deriving DecidableEq

/-- A `PoolJob` as created by `submit_job` (which always sets the
`remote_job_id` attribute, so the `hasattr` probe in `get_job_status`
holds for every job in `self.jobs`). -/
structure PoolJob where
  job_id : String
  worker_id : Option String
  status : String
  submitted_at : Int
  completed_at : Int
  remote_job_id : Option String
deriving DecidableEq

structure PoolState where
  workers : List (String × Worker)
  jobs : List (String × PoolJob)
deriving DecidableEq

/-- The JSON body `get_job_status` answers with (the nested
`worker_status` payload is omitted; `pool_status` carries the same
status string). -/
structure StatusView where
  job_id : String
  pool_status : String
  worker_id : Option String
  submitted_at : Int
  completed_at : Option Int
deriving DecidableEq

/-- Translation of `TrustedPoolCoordinator.get_job_status`.  `worker_resp`
is the outcome of the HTTP status probe: `none` when the request fails or
returns non-200 (the source logs and falls through to the local state),
`some f` on a 200 response whose optional `"status"` field is `f`
(`worker_status.get("status", job.status)` defaults to the local status).
When the updated status is terminal the assigned worker's count is set to
`max(0, active_jobs - 1)` — truncated subtraction on `Nat` — and the
completion time is stamped. -/
def get_job_status (st : PoolState) (job_id : String)
    (worker_resp : Option (Option String)) (now : Int) :
    PoolState × Option StatusView :=
  match find_assoc st.jobs job_id with
  | none => (st, none)
  | some job =>
    let local_view : StatusView :=
      { job_id, pool_status := job.status, worker_id := job.worker_id,
        submitted_at := job.submitted_at,
        completed_at :=
          if job.status = "completed" ∨ job.status = "failed" then
            some job.completed_at
          else none }
    if (job.status = "dispatched" ∨ job.status = "running") ∧
        py_truthy job.worker_id = true then
      match job.worker_id with
      | none => (st, some local_view)
      | some wid =>
        match find_assoc st.workers wid with
        | none => (st, some local_view)
        | some worker =>
          match worker_resp with
          | none => (st, some local_view)
          | some status_field =>
            let new_status := status_field.getD job.status
            if new_status = "completed" ∨ new_status = "failed" then
              let worker1 : Worker := { worker with active_jobs := worker.active_jobs - 1 }
              let job1 : PoolJob := { job with status := new_status, completed_at := now }
              let view1 : StatusView :=
                { job_id, pool_status := new_status, worker_id := some wid,
                  submitted_at := job.submitted_at, completed_at := some now }
              ({ workers := set_assoc st.workers wid worker1,
                 jobs := set_assoc st.jobs job_id job1 }, some view1)
            else
              let job1 : PoolJob := { job with status := new_status }
              let view1 : StatusView :=
                { job_id, pool_status := new_status, worker_id := some wid,
                  submitted_at := job.submitted_at, completed_at := none }
              ({ st with jobs := set_assoc st.jobs job_id job1 }, some view1)
    else (st, some local_view)

/-! ### Rate-limiter lemmas -/

theorem recent_cpu_sum_dropWhile (l : List (Int × Int)) (now : Int) :
    recent_cpu_sum (l.dropWhile (fun s => decide (s.1 < now - 60))) now =
      recent_cpu_sum l now := by
  unfold recent_cpu_sum
  rw [filter_dropWhile_eq]
  intro a ha
  simp only [decide_eq_true_eq] at ha
  simp only [decide_eq_false_iff_not]
  omega

theorem recent_jobs_count_dropWhile (hist : List Int) (now : Int) :
    recent_jobs_count (hist.dropWhile (fun t => decide (t < now - 3600))) now =
      recent_jobs_count hist now := by
  unfold recent_jobs_count
  rw [filter_dropWhile_eq]
  intro a ha
  simp only [decide_eq_true_eq] at ha
  simp only [decide_eq_false_iff_not]
  omega

/-- Characterization of the decision returned by `can_submit_job`: the
lazy cleanup does not change the value of either window check, so the
decision is the first failing check in source order, with the CPU wait
time read off the oldest retained sample. -/
theorem can_submit_job_decision (cfg : RLConfig) (st : RLState) (now : Int) :
    (can_submit_job cfg st now).2 =
      if st.active_jobs.card ≥ cfg.max_concurrent_jobs then
        SubmitDecision.rejected_concurrent cfg.max_concurrent_jobs
      else if recent_jobs_count st.job_history now ≥ cfg.max_jobs_per_hour then
        SubmitDecision.rejected_hourly cfg.max_jobs_per_hour
      else if recent_cpu_sum st.cpu_usage now ≥ cfg.cpu_seconds_per_minute then
        match st.cpu_usage.dropWhile (fun s => decide (s.1 < now - 60)) with
        | s :: _ => SubmitDecision.rejected_cpu (60 - (now - s.1))
        | [] => SubmitDecision.cpu_index_error
      else SubmitDecision.allowed := by
  simp only [can_submit_job, cleanup_old_entries]
  by_cases h1 : st.active_jobs.card ≥ cfg.max_concurrent_jobs
  · rw [if_pos h1, if_pos h1]
  · rw [if_neg h1, if_neg h1]
    rw [recent_jobs_count_dropWhile, recent_cpu_sum_dropWhile]
    by_cases h2 : recent_jobs_count st.job_history now ≥ cfg.max_jobs_per_hour
    · rw [if_pos h2, if_pos h2]
    · rw [if_neg h2, if_neg h2]
      by_cases h3 : recent_cpu_sum st.cpu_usage now ≥ cfg.cpu_seconds_per_minute
      · rw [if_pos h3, if_pos h3]
        cases st.cpu_usage.dropWhile (fun s => decide (s.1 < now - 60)) <;> rfl
      · rw [if_neg h3, if_neg h3]

/-- C5 (counterexample): with `cpu_seconds_per_minute = 10`, samples
`[(0, 5), (59, 10)]` and `now = 60`, the in-window sum is `10 ≥ 10`, so the
caller is rejected — but the computed wait time is
`60 - (60 - 0) = 0`, which is not strictly positive, and differs from the
claimed formula `60 - (now - oldest_sample_timestamp_in_window) = 59`:
the sample at time `0` is exactly 60 seconds old, so cleanup retains it
(strict `<`) while the quota sum excludes it (strict `>`), and the wait
time is computed from this out-of-window deque head. -/
theorem cpu_quota_wait_time_counterexample :
    (can_submit_job ⟨10, 2, 20⟩ ⟨[(0, 5), (59, 10)], ∅, [], none⟩ 60).2 =
      SubmitDecision.rejected_cpu 0 ∧
    ¬ ((0 : Int) > 0) ∧
    (60 - (60 - 59) : Int) = 59 ∧ (0 : Int) ≠ 59 := by decide

/-- C5 (amended): when the caller passes the concurrency and hourly checks
but the trailing-60-second CPU sum reaches the per-minute cap,
`can_submit_job` rejects with wait time `60 - (now - t0)` where `t0` is the
oldest retained sample timestamp, and that wait time is nonnegative (it can
be `0`, not strictly positive).  Once every sample is at least 60 seconds
old, a caller whose samples total at most the cap (with a positive oldest
cost) is admitted again. -/
theorem cpu_quota_wait_time (cfg : RLConfig) (st : RLState) (now : Int)
    (hcon : st.active_jobs.card < cfg.max_concurrent_jobs)
    (hhour : recent_jobs_count st.job_history now < cfg.max_jobs_per_hour) :
    (∀ t0 c0 rest,
      recent_cpu_sum st.cpu_usage now ≥ cfg.cpu_seconds_per_minute →
      st.cpu_usage.dropWhile (fun s => decide (s.1 < now - 60)) = (t0, c0) :: rest →
      (can_submit_job cfg st now).2 = SubmitDecision.rejected_cpu (60 - (now - t0)) ∧
        0 ≤ 60 - (now - t0)) ∧
    (∀ t0 c0 rest,
      st.cpu_usage = (t0, c0) :: rest →
      (∀ s ∈ st.cpu_usage, 0 ≤ s.2) →
      t0 ≤ now - 60 → 0 < c0 →
      (st.cpu_usage.map Prod.snd).sum ≤ cfg.cpu_seconds_per_minute →
      (can_submit_job cfg st now).2 = SubmitDecision.allowed) := by
  constructor
  · intro t0 c0 rest hge hdrop
    constructor
    · rw [can_submit_job_decision, if_neg (by omega), if_neg (by omega),
        if_pos hge, hdrop]
    · have hhead := dropWhile_head_false _ _ _ _ hdrop
      simp only [decide_eq_false_iff_not] at hhead
      omega
  · intro t0 c0 rest hlist hnn ht0 hc0 htot
    have hkey : recent_cpu_sum st.cpu_usage now < cfg.cpu_seconds_per_minute := by
      rw [hlist]
      unfold recent_cpu_sum
      rw [List.filter_cons]
      have hq : decide ((t0, c0).1 > now - 60) = false := by
        simp only [decide_eq_false_iff_not]
        omega
      rw [hq, if_neg Bool.false_ne_true]
      have hle := sum_filter_le_sum (fun s => decide (s.1 > now - 60)) rest
        (fun s hs => hnn s (hlist ▸ List.mem_cons_of_mem _ hs))
      rw [hlist] at htot
      simp only [List.map_cons, List.sum_cons] at htot
      omega
    rw [can_submit_job_decision, if_neg (by omega), if_neg (by omega),
      if_neg (by omega)]

/-- Witness for `cpu_quota_wait_time` at a concrete input: one sample of
cost 10 at time 30 fills the cap at `now = 60`, and the rejection carries
wait time `60 - (60 - 30) = 30 ≥ 0`. -/
theorem cpu_quota_wait_time_witness :
    (can_submit_job ⟨10, 2, 20⟩ ⟨[(30, 10)], ∅, [], none⟩ 60).2 =
      SubmitDecision.rejected_cpu (60 - (60 - 30)) ∧
    (0 : Int) ≤ 60 - (60 - 30) :=
  (cpu_quota_wait_time ⟨10, 2, 20⟩ ⟨[(30, 10)], ∅, [], none⟩ 60
    (by decide) (by decide)).1 30 10 [] (by decide) (by decide)

/-- C6: the concurrency check is evaluated first, so a caller whose
active-job set has reached `max_concurrent_jobs` is rejected with the
concurrency reason regardless of the state of the hourly and CPU windows;
after `register_job_end` removes one active job, the set is strictly below
the cap again and, provided the hourly and CPU checks pass, the caller is
admitted. -/
theorem concurrency_check_first (cfg : RLConfig) (st : RLState)
    (job_id : String) (now now2 t c : Int) :
    (st.active_jobs.card ≥ cfg.max_concurrent_jobs →
      (can_submit_job cfg st now).2 =
        SubmitDecision.rejected_concurrent cfg.max_concurrent_jobs) ∧
    (st.active_jobs.card = cfg.max_concurrent_jobs → job_id ∈ st.active_jobs →
      (register_job_end st job_id c t).active_jobs.card < cfg.max_concurrent_jobs ∧
      (recent_jobs_count (register_job_end st job_id c t).job_history now2 <
          cfg.max_jobs_per_hour →
        recent_cpu_sum (register_job_end st job_id c t).cpu_usage now2 <
          cfg.cpu_seconds_per_minute →
        (can_submit_job cfg (register_job_end st job_id c t) now2).2 =
          SubmitDecision.allowed)) := by
  constructor
  · intro h
    rw [can_submit_job_decision, if_pos h]
  · intro hcard hmem
    have hactive : (register_job_end st job_id c t).active_jobs =
        st.active_jobs.erase job_id := by
      simp [register_job_end, cleanup_old_entries]
    have hpos : 0 < st.active_jobs.card := Finset.card_pos.mpr ⟨job_id, hmem⟩
    have hce : (st.active_jobs.erase job_id).card = st.active_jobs.card - 1 :=
      Finset.card_erase_of_mem hmem
    have hlt : (register_job_end st job_id c t).active_jobs.card <
        cfg.max_concurrent_jobs := by
      rw [hactive, hce]
      omega
    refine ⟨hlt, ?_⟩
    intro hh hc
    rw [can_submit_job_decision, if_neg (by omega), if_neg (by omega),
      if_neg (by omega)]

/-- Witness for `concurrency_check_first`: with `max_concurrent_jobs = 2`
and active set of size 2, submission is rejected with the concurrency
reason; after one of the two jobs ends, the same caller is admitted. -/
theorem concurrency_check_first_witness :
    (can_submit_job ⟨10, 2, 20⟩ ⟨[], {"a", "b"}, [], none⟩ 0).2 =
      SubmitDecision.rejected_concurrent 2 ∧
    (can_submit_job ⟨10, 2, 20⟩
        (register_job_end ⟨[], {"a", "b"}, [], none⟩ "a" 1 0) 10).2 =
      SubmitDecision.allowed := by
  have h := concurrency_check_first ⟨10, 2, 20⟩ ⟨[], {"a", "b"}, [], none⟩ "a" 0 10 0 1
  exact ⟨h.1 (by decide), (h.2 (by decide) (by decide)).2 (by decide) (by decide)⟩

/-- C10: `register_job_end` never fails for a job id absent from the
active set — removal is an idempotent `discard`, so a second call with the
same id removes nothing more — while every call unconditionally appends
its `(timestamp, cpu_seconds)` sample to the caller's CPU window. -/
theorem register_job_end_discard_append (st : RLState) (job_id : String)
    (c1 t1 c2 t2 : Int) :
    (register_job_end st job_id c1 t1).active_jobs =
      st.active_jobs.erase job_id ∧
    (job_id ∉ st.active_jobs →
      (register_job_end st job_id c1 t1).active_jobs = st.active_jobs) ∧
    (register_job_end (register_job_end st job_id c1 t1) job_id c2 t2).active_jobs =
      st.active_jobs.erase job_id ∧
    (t1, c1) ∈ (register_job_end st job_id c1 t1).cpu_usage ∧
    (t2, c2) ∈
      (register_job_end (register_job_end st job_id c1 t1) job_id c2 t2).cpu_usage := by
  refine ⟨?_, ?_, ?_, ?_, ?_⟩
  · simp [register_job_end, cleanup_old_entries]
  · intro hnot
    simp [register_job_end, cleanup_old_entries, Finset.erase_eq_of_not_mem hnot]
  · simp [register_job_end, cleanup_old_entries, Finset.erase_idem]
  · have h1 : decide ((t1, c1).1 < t1 - 60) = false := by
      simp only [decide_eq_false_iff_not]
      omega
    simpa [register_job_end, cleanup_old_entries] using
      mem_dropWhile_append _ st.cpu_usage (t1, c1) h1
  · have h2 : decide ((t2, c2).1 < t2 - 60) = false := by
      simp only [decide_eq_false_iff_not]
      omega
    simpa [register_job_end, cleanup_old_entries] using
      mem_dropWhile_append _ (register_job_end st job_id c1 t1).cpu_usage (t2, c2) h2

/-- Witness for `register_job_end_discard_append`: ending a job that is
not in the active set leaves the set unchanged, and the sample is
appended. -/
theorem register_job_end_discard_append_witness :
    (register_job_end ⟨[], {"k"}, [], none⟩ "j" 3 100).active_jobs =
      ({"k"} : Finset String) ∧
    ((100 : Int), (3 : Int)) ∈
      (register_job_end ⟨[], {"k"}, [], none⟩ "j" 3 100).cpu_usage := by
  have h := register_job_end_discard_append ⟨[], {"k"}, [], none⟩ "j" 3 100 4 200
  exact ⟨h.2.1 (by decide), h.2.2.2.1⟩

/-! ### Concrete sample states used by counterexamples and witnesses -/

def empty_qstate : QState :=
  { jobs := [], ledger := [], scheduled := [], created_users := [],
    deleted_users := [], pkilled_users := [], dirs_made := [], dirs_removed := [] }

def single_job_state (j : Job) : QState :=
  { empty_qstate with jobs := [(j.job_id, j)], ledger := [(j.job_id, j)] }

def sample_cancelled_job : Job :=
  { job_id := "j1", ephemeral_user := "job_u1", directory := "./jobs/job_d1",
    command := ["echo", "hi"], status := "cancelled", logs := "",
    hashed_secret := none }

def sample_running_job : Job :=
  { sample_cancelled_job with status := "running" }

def sample_completed_job : Job :=
  { sample_cancelled_job with status := "completed" }

def sample_new_job : Job :=
  mk_job (fun s => s) "j2" "job_u2" "./jobs/job_d2" ["python", "main.py"] none

/-! ### C1: restart of a cancelled job -/

/-- C1 (counterexample): restarting the cancelled job `"j1"` succeeds and
re-queues it, but the restarted job keeps exactly the isolation identity
`"job_u1"` and directory `"./jobs/job_d1"` it had before the restart —
`restart_job` calls `makedirs` and `useradd` on the stored names and never
generates new ones, so the provisioned identity is not distinct from the
previous one. -/
theorem restart_job_counterexample :
    (restart_job (single_job_state sample_cancelled_job) "j1" true).2 = Except.ok () ∧
    (find_assoc (restart_job (single_job_state sample_cancelled_job) "j1" true).1.jobs
        "j1").map Job.status = some "queued" ∧
    (find_assoc (restart_job (single_job_state sample_cancelled_job) "j1" true).1.jobs
        "j1").map Job.ephemeral_user = some "job_u1" ∧
    (find_assoc (restart_job (single_job_state sample_cancelled_job) "j1" true).1.jobs
        "j1").map Job.directory = some "./jobs/job_d1" ∧
    ¬ ((find_assoc (restart_job (single_job_state sample_cancelled_job) "j1" true).1.jobs
        "j1").map Job.ephemeral_user ≠ some "job_u1") := by decide

/-- C1 (amended): `restart_job` on a cancelled job transitions it to
queued, re-schedules execution, and re-provisions the job's isolation
identity and working directory under the same names the job already had
(it re-creates the existing user and directory rather than allocating new
ones). -/
theorem restart_job_requeues_reusing_identity (st : QState) (job_id : String)
    (job : Job) (hfind : find_assoc st.jobs job_id = some job)
    (hst : job.status = "cancelled") :
    (restart_job st job_id true).2 = Except.ok () ∧
    find_assoc (restart_job st job_id true).1.jobs job_id =
      some ({ job with status := "queued" }) ∧
    (restart_job st job_id true).1.scheduled = st.scheduled ++ [job_id] ∧
    (restart_job st job_id true).1.created_users =
      st.created_users ++ [job.ephemeral_user] ∧
    (restart_job st job_id true).1.dirs_made = st.dirs_made ++ [job.directory] := by
  have h2 := find_assoc_set_assoc_of_found st.jobs job_id job
    ({ job with status := "queued" }) hfind
  refine ⟨?_, ?_, ?_, ?_, ?_⟩ <;>
    simp [restart_job, hfind, hst, save_jobs, h2]

/-- Witness for `restart_job_requeues_reusing_identity` on the concrete
cancelled job `"j1"`. -/
theorem restart_job_requeues_reusing_identity_witness :
    (restart_job (single_job_state sample_cancelled_job) "j1" true).2 = Except.ok () ∧
    find_assoc (restart_job (single_job_state sample_cancelled_job) "j1" true).1.jobs
        "j1" = some ({ sample_cancelled_job with status := "queued" }) ∧
    (restart_job (single_job_state sample_cancelled_job) "j1" true).1.scheduled =
      (single_job_state sample_cancelled_job).scheduled ++ ["j1"] ∧
    (restart_job (single_job_state sample_cancelled_job) "j1" true).1.created_users =
      (single_job_state sample_cancelled_job).created_users ++
        [sample_cancelled_job.ephemeral_user] ∧
    (restart_job (single_job_state sample_cancelled_job) "j1" true).1.dirs_made =
      (single_job_state sample_cancelled_job).dirs_made ++
        [sample_cancelled_job.directory] :=
  restart_job_requeues_reusing_identity (single_job_state sample_cancelled_job) "j1"
    sample_cancelled_job (by decide) (by decide)

/-! ### C2: enqueue when user provisioning fails -/

/-- C2 (counterexample): enqueuing the fresh job `"j2"` into an empty
queue with a failing `useradd` aborts with an error and schedules nothing,
yet the job record remains in both the in-memory job table and the
persisted ledger — `enqueue` inserts and persists the job before
provisioning the isolation identity, and nothing rolls that back. -/
theorem enqueue_user_failure_counterexample :
    (enqueue empty_qstate sample_new_job false).2 = Except.error "useradd failed" ∧
    find_assoc (enqueue empty_qstate sample_new_job false).1.jobs "j2" =
      some sample_new_job ∧
    find_assoc (enqueue empty_qstate sample_new_job false).1.ledger "j2" =
      some sample_new_job ∧
    ¬ (find_assoc (enqueue empty_qstate sample_new_job false).1.jobs "j2" = none) := by
  decide

/-- C2 (amended): when isolation-identity provisioning fails, the
submission aborts with an error and no execution is scheduled, but the
queue state is not rolled back: the job, in status queued, remains in the
job table and in the persisted ledger, both of which were updated before
provisioning was attempted. -/
theorem enqueue_user_failure_keeps_job (st : QState) (job : Job)
    (hfresh : find_assoc st.jobs job.job_id = none) :
    (enqueue st job false).2 = Except.error "useradd failed" ∧
    (enqueue st job false).1.scheduled = st.scheduled ∧
    (enqueue st job false).1.created_users = st.created_users ∧
    find_assoc (enqueue st job false).1.jobs job.job_id = some job ∧
    find_assoc (enqueue st job false).1.ledger job.job_id = some job := by
  have h2 := find_assoc_append_fresh st.jobs job.job_id job hfresh
  refine ⟨?_, ?_, ?_, ?_, ?_⟩ <;> simp [enqueue, save_jobs, h2]

/-- Witness for `enqueue_user_failure_keeps_job` on the empty queue. -/
theorem enqueue_user_failure_keeps_job_witness :
    (enqueue empty_qstate sample_new_job false).2 = Except.error "useradd failed" ∧
    (enqueue empty_qstate sample_new_job false).1.scheduled = empty_qstate.scheduled ∧
    (enqueue empty_qstate sample_new_job false).1.created_users =
      empty_qstate.created_users ∧
    find_assoc (enqueue empty_qstate sample_new_job false).1.jobs
        sample_new_job.job_id = some sample_new_job ∧
    find_assoc (enqueue empty_qstate sample_new_job false).1.ledger
        sample_new_job.job_id = some sample_new_job :=
  enqueue_user_failure_keeps_job empty_qstate sample_new_job (by decide)

/-! ### C3: cancel -/

/-- C3 (counterexample): cancelling the running job `"j1"` when the
`pkill` command exits non-zero raises an error and leaves the job's
status `"running"` — so a running job is not unconditionally marked
cancelled, contrary to the claim. -/
theorem cancel_job_counterexample :
    (cancel_job (single_job_state sample_running_job) "j1" 1).2 =
      Except.error "Error canceling job: Failed to cancel job." ∧
    (find_assoc (cancel_job (single_job_state sample_running_job) "j1" 1).1.jobs
        "j1").map Job.status = some "running" ∧
    ¬ ((find_assoc (cancel_job (single_job_state sample_running_job) "j1" 1).1.jobs
        "j1").map Job.status = some "cancelled") := by decide

/-- C3 (amended): `cancel_job` succeeds only on a running job.  For an
unknown id or a non-running job it fails with a stateful error and leaves
the state unchanged.  For a running job it issues one bulk `pkill` on the
job's isolation identity (the model takes no process-death information as
input — the queue never waits for death confirmation); if that command
reports success the job is marked cancelled and persisted, and if it
reports failure an error is raised and the job table is unchanged. -/
theorem cancel_job_cases (st : QState) (job_id : String) (rc : Int) :
    (find_assoc st.jobs job_id = none →
      cancel_job st job_id rc = (st, Except.error "Job not found.")) ∧
    (∀ job, find_assoc st.jobs job_id = some job → job.status ≠ "running" →
      cancel_job st job_id rc = (st, Except.error "Job is not running.")) ∧
    (∀ job, find_assoc st.jobs job_id = some job → job.status = "running" →
      (cancel_job st job_id rc).1.pkilled_users =
        st.pkilled_users ++ [job.ephemeral_user] ∧
      (rc = 0 →
        (cancel_job st job_id rc).2 = Except.ok () ∧
        find_assoc (cancel_job st job_id rc).1.jobs job_id =
          some ({ job with status := "cancelled" })) ∧
      (rc ≠ 0 →
        (cancel_job st job_id rc).2 =
          Except.error "Error canceling job: Failed to cancel job." ∧
        (cancel_job st job_id rc).1.jobs = st.jobs)) := by
  refine ⟨?_, ?_, ?_⟩
  · intro h
    simp [cancel_job, h]
  · intro job hfind hst
    simp [cancel_job, hfind, hst]
  · intro job hfind hst
    have h2 := find_assoc_set_assoc_of_found st.jobs job_id job
      ({ job with status := "cancelled" }) hfind
    by_cases hrc : rc = 0
    · subst hrc
      refine ⟨?_, fun _ => ⟨?_, ?_⟩, fun h0 => absurd rfl h0⟩ <;>
        simp [cancel_job, hfind, hst, save_jobs, h2]
    · refine ⟨?_, fun h0 => absurd h0 hrc, fun _ => ⟨?_, ?_⟩⟩ <;>
        simp [cancel_job, hfind, hst, hrc]

/-- Witness for `cancel_job_cases`: cancelling the running job `"j1"`
with a successful `pkill` marks it cancelled. -/
theorem cancel_job_cases_witness :
    (cancel_job (single_job_state sample_running_job) "j1" 0).2 = Except.ok () ∧
    find_assoc (cancel_job (single_job_state sample_running_job) "j1" 0).1.jobs
        "j1" = some ({ sample_running_job with status := "cancelled" }) :=
  ((cancel_job_cases (single_job_state sample_running_job) "j1" 0).2.2
    sample_running_job (by decide) (by decide)).2.1 rfl

/-! ### C4: execution outcome and identity teardown -/

/-- C4: for every executed job, a zero exit code yields final status
completed; any non-zero exit code or thrown execution error yields status
failed with the diagnostic note appended to the log; and in every case —
success, failure, or exception — the job's ephemeral user is deleted
afterward and the final state is persisted, so the job ends in a terminal
status with its isolation identity destroyed. -/
theorem run_job_outcome_and_teardown (st : QState) (job_id : String)
    (job : Job) (outcome : Except String (String × Int))
    (hfind : find_assoc st.jobs job_id = some job) :
    (∀ stdout : String, outcome = Except.ok (stdout, 0) →
      find_assoc (run_job st job_id outcome).jobs job_id =
        some ({ job with status := "completed", logs := stdout })) ∧
    (∀ (stdout : String) (ec : Int), outcome = Except.ok (stdout, ec) → ec ≠ 0 →
      find_assoc (run_job st job_id outcome).jobs job_id =
        some ({ job with status := "failed",
                         logs := stdout ++ "\n[Error] Non-zero return code." })) ∧
    (∀ msg : String, outcome = Except.error msg →
      find_assoc (run_job st job_id outcome).jobs job_id =
        some ({ job with status := "failed",
                         logs := job.logs ++ "\n[Exception] " ++ msg })) ∧
    (run_job st job_id outcome).deleted_users =
      st.deleted_users ++ [job.ephemeral_user] ∧
    (run_job st job_id outcome).ledger = (run_job st job_id outcome).jobs ∧
    (∃ j, find_assoc (run_job st job_id outcome).jobs job_id = some j ∧
      (j.status = "completed" ∨ j.status = "failed")) := by
  have h1 := find_assoc_set_assoc_of_found st.jobs job_id job
    ({ job with status := "running" }) hfind
  have hok : ∀ stdout : String, ∀ ec : Int,
      find_assoc (run_job st job_id (Except.ok (stdout, ec))).jobs job_id =
        some (if ec = 0 then { job with status := "completed", logs := stdout }
          else { job with status := "failed",
                          logs := stdout ++ "\n[Error] Non-zero return code." }) := by
    intro stdout ec
    by_cases hec : ec = 0
    · subst hec
      have h2 := find_assoc_set_assoc_of_found _ job_id
        ({ job with status := "running" })
        ({ job with status := "completed", logs := stdout }) h1
      simpa [run_job, hfind, save_jobs] using h2
    · have h2 := find_assoc_set_assoc_of_found _ job_id
        ({ job with status := "running" })
        ({ job with status := "failed",
                    logs := stdout ++ "\n[Error] Non-zero return code." }) h1
      simpa [run_job, hfind, save_jobs, hec] using h2
  have herr : ∀ msg : String,
      find_assoc (run_job st job_id (Except.error msg)).jobs job_id =
        some ({ job with status := "failed",
                         logs := job.logs ++ "\n[Exception] " ++ msg }) := by
    intro msg
    have h2 := find_assoc_set_assoc_of_found _ job_id
      ({ job with status := "running" })
      ({ job with status := "failed",
                  logs := job.logs ++ "\n[Exception] " ++ msg }) h1
    simpa [run_job, hfind, save_jobs] using h2
  refine ⟨?_, ?_, ?_, ?_, ?_, ?_⟩
  · intro stdout hout
    subst hout
    simpa using hok stdout 0
  · intro stdout ec hout hec
    subst hout
    simpa [hec] using hok stdout ec
  · intro msg hout
    subst hout
    exact herr msg
  · cases outcome with
    | ok v => simp [run_job, hfind, save_jobs]
    | error msg => simp [run_job, hfind, save_jobs]
  · cases outcome with
    | ok v => simp [run_job, hfind, save_jobs]
    | error msg => simp [run_job, hfind, save_jobs]
  · cases outcome with
    | ok v =>
      obtain ⟨stdout, ec⟩ := v
      by_cases hec : ec = 0
      · subst hec
        exact ⟨_, hok stdout 0, by simp⟩
      · exact ⟨_, hok stdout ec, by simp [hec]⟩
    | error msg => exact ⟨_, herr msg, by simp⟩

/-- Witness for `run_job_outcome_and_teardown`: running the queued job
`"j2"` with a command that exits with code 1 marks it failed, appends the
non-zero-exit diagnostic note, and deletes its ephemeral user. -/
theorem run_job_outcome_and_teardown_witness :
    find_assoc (run_job (single_job_state sample_new_job) "j2"
        (Except.ok ("boom", 1))).jobs "j2" =
      some ({ sample_new_job with status := "failed",
                                  logs := "boom" ++ "\n[Error] Non-zero return code." }) ∧
    (run_job (single_job_state sample_new_job) "j2"
        (Except.ok ("boom", 1))).deleted_users =
      (single_job_state sample_new_job).deleted_users ++
        [sample_new_job.ephemeral_user] := by
  have h := run_job_outcome_and_teardown (single_job_state sample_new_job) "j2"
    sample_new_job (Except.ok ("boom", 1)) (by decide)
  exact ⟨h.2.1 "boom" 1 rfl (by decide), h.2.2.2.1⟩

/-! ### C7: delete -/

/-- C7: `delete_job` fails with a stateful error on a running job and
leaves the job table and the ledger untouched; on any non-running job it
succeeds, removes the job's entry from the table and the persisted
ledger, and removes the working directory exactly when it exists on
disk. -/
theorem delete_job_cases (st : QState) (job_id : String) (job : Job)
    (dir_exists : Bool) (hfind : find_assoc st.jobs job_id = some job) :
    (job.status = "running" →
      delete_job st job_id dir_exists =
        (st, Except.error "Cannot delete a running job. Cancel it first.")) ∧
    (job.status ≠ "running" →
      (delete_job st job_id dir_exists).2 = Except.ok () ∧
      find_assoc (delete_job st job_id dir_exists).1.jobs job_id = none ∧
      find_assoc (delete_job st job_id dir_exists).1.ledger job_id = none ∧
      (delete_job st job_id dir_exists).1.dirs_removed =
        (if dir_exists then st.dirs_removed ++ [job.directory]
         else st.dirs_removed)) := by
  have h2 := find_assoc_del_assoc_self st.jobs job_id
  constructor
  · intro hst
    simp [delete_job, hfind, hst]
  · intro hst
    cases dir_exists <;>
      refine ⟨?_, ?_, ?_, ?_⟩ <;>
        simp [delete_job, hfind, hst, save_jobs, h2]

/-- Witness for `delete_job_cases`: deleting the completed job `"j1"`
with an existing working directory removes the entry and the
directory. -/
theorem delete_job_cases_witness :
    (delete_job (single_job_state sample_completed_job) "j1" true).2 = Except.ok () ∧
    find_assoc (delete_job (single_job_state sample_completed_job) "j1" true).1.jobs
        "j1" = none ∧
    find_assoc (delete_job (single_job_state sample_completed_job) "j1" true).1.ledger
        "j1" = none ∧
    (delete_job (single_job_state sample_completed_job) "j1" true).1.dirs_removed =
      (if true then (single_job_state sample_completed_job).dirs_removed ++
          [sample_completed_job.directory]
       else (single_job_state sample_completed_job).dirs_removed) :=
  (delete_job_cases (single_job_state sample_completed_job) "j1"
    sample_completed_job true (by decide)).2 (by decide)

/-! ### C8: terminal-status decrement in the coordinator -/

def sample_worker : Worker :=
  { worker_id := "w1", endpoint := "http://worker1:8443", last_health_check := 0,
    is_healthy := true, active_jobs := 3, max_concurrent_jobs := 4 }

def sample_pool_job : PoolJob :=
  { job_id := "p1", worker_id := some "w1", status := "dispatched",
    submitted_at := 5, completed_at := 0, remote_job_id := some "r1" }

def sample_pool_state : PoolState :=
  { workers := [("w1", sample_worker)], jobs := [("p1", sample_pool_job)] }

/-- C8: when a dispatched (or running) `PoolJob` is polled and the worker
reports either terminal status — `"completed"` or `"failed"` — the
assigned worker's active-job count is decremented exactly once and the
completion time is stamped at that transition; any later poll of the
now-terminal job — whatever the worker would answer — leaves the
coordinator state unchanged, so no second decrement can occur. -/
theorem get_job_status_decrements_once (st : PoolState) (job_id wid ts : String)
    (job : PoolJob) (worker : Worker) (now now2 : Int)
    (resp2 : Option (Option String))
    (hj : find_assoc st.jobs job_id = some job)
    (hdis : job.status = "dispatched" ∨ job.status = "running")
    (hw : job.worker_id = some wid) (hwne : wid ≠ "")
    (hfw : find_assoc st.workers wid = some worker)
    (hn : 1 ≤ worker.active_jobs)
    (hts : ts = "completed" ∨ ts = "failed") :
    (find_assoc (get_job_status st job_id (some (some ts)) now).1.workers
        wid).map Worker.active_jobs = some (worker.active_jobs - 1) ∧
    worker.active_jobs - 1 < worker.active_jobs ∧
    (find_assoc (get_job_status st job_id (some (some ts)) now).1.jobs
        job_id).map PoolJob.status = some ts ∧
    (find_assoc (get_job_status st job_id (some (some ts)) now).1.jobs
        job_id).map PoolJob.completed_at = some now ∧
    (get_job_status (get_job_status st job_id (some (some ts)) now).1
        job_id resp2 now2).1 =
      (get_job_status st job_id (some (some ts)) now).1 := by
  have hst1 : (get_job_status st job_id (some (some ts)) now).1 =
      { workers := set_assoc st.workers wid
          ({ worker with active_jobs := worker.active_jobs - 1 }),
        jobs := set_assoc st.jobs job_id
          ({ job with status := ts, completed_at := now }) } := by
    rcases hdis with hd | hd <;> rcases hts with ht | ht <;> subst ht <;>
      simp [get_job_status, hj, hw, hfw, py_truthy, hwne, hd]
  have hworkers := find_assoc_set_assoc_of_found st.workers wid worker
    ({ worker with active_jobs := worker.active_jobs - 1 }) hfw
  have hjobs := find_assoc_set_assoc_of_found st.jobs job_id job
    ({ job with status := ts, completed_at := now }) hj
  refine ⟨?_, ?_, ?_, ?_, ?_⟩
  · rw [hst1]
    simp [hworkers]
  · omega
  · rw [hst1]
    simp [hjobs]
  · rw [hst1]
    simp [hjobs]
  · rw [hst1]
    rcases hts with ht | ht <;> subst ht <;> simp [get_job_status, hjobs]

/-- Witness for `get_job_status_decrements_once` on a concrete pool with
one worker carrying three active jobs and one dispatched job, exercising
both terminal statuses: the `"failed"` report decrements the count,
stamps completion time, and is immune to re-polling, and the
`"completed"` report likewise marks the job terminal. -/
theorem get_job_status_decrements_once_witness :
    (find_assoc (get_job_status sample_pool_state "p1" (some (some "failed")) 9).1.workers
        "w1").map Worker.active_jobs = some (sample_worker.active_jobs - 1) ∧
    sample_worker.active_jobs - 1 < sample_worker.active_jobs ∧
    (find_assoc (get_job_status sample_pool_state "p1" (some (some "failed")) 9).1.jobs
        "p1").map PoolJob.status = some "failed" ∧
    (find_assoc (get_job_status sample_pool_state "p1" (some (some "failed")) 9).1.jobs
        "p1").map PoolJob.completed_at = some 9 ∧
    (get_job_status (get_job_status sample_pool_state "p1" (some (some "failed")) 9).1
        "p1" (some (some "failed")) 11).1 =
      (get_job_status sample_pool_state "p1" (some (some "failed")) 9).1 ∧
    (find_assoc (get_job_status sample_pool_state "p1" (some (some "completed")) 9).1.workers
        "w1").map Worker.active_jobs = some (sample_worker.active_jobs - 1) ∧
    (find_assoc (get_job_status sample_pool_state "p1" (some (some "completed")) 9).1.jobs
        "p1").map PoolJob.status = some "completed" := by
  have hf := get_job_status_decrements_once sample_pool_state "p1" "w1" "failed"
    sample_pool_job sample_worker 9 11 (some (some "failed")) (by decide) (by decide)
    (by decide) (by decide) (by decide) (by decide) (by decide)
  have hc := get_job_status_decrements_once sample_pool_state "p1" "w1" "completed"
    sample_pool_job sample_worker 9 11 (some (some "completed")) (by decide) (by decide)
    (by decide) (by decide) (by decide) (by decide) (by decide)
  exact ⟨hf.1, hf.2.1, hf.2.2.1, hf.2.2.2.1, hf.2.2.2.2, hc.1, hc.2.2.1⟩

/-! ### C9: empty-string secret and the authorization guard -/

/-- C9: a job enqueued with the empty string as its secret stores no
secret hash (`hash_secret(secret) if secret else None` with a falsy
secret), so the route guard treats it exactly like a job enqueued with no
secret: it never raises, and `get_job` succeeds without any presented
secret.  In general, given that real secret hashes are nonempty strings,
the guard raises an authorization failure if and only if a non-empty
secret was set at enqueue and the presented secret is falsy or hashes
differently from the stored hash. -/
theorem empty_secret_no_auth (hash_secret : String → String)
    (hh : ∀ s, hash_secret s ≠ "")
    (job_id ephemeral_user directory : String) (command : List String)
    (secret presented : Option String) :
    (mk_job hash_secret job_id ephemeral_user directory command
        (some "")).hashed_secret = none ∧
    auth_guard hash_secret
        (mk_job hash_secret job_id ephemeral_user directory command
          (some "")).hashed_secret presented =
      auth_guard hash_secret
        (mk_job hash_secret job_id ephemeral_user directory command
          none).hashed_secret presented ∧
    auth_guard hash_secret
        (mk_job hash_secret job_id ephemeral_user directory command
          (some "")).hashed_secret presented = none ∧
    (∀ st job, find_assoc st.jobs job_id = some job → job.hashed_secret = none →
      get_job_route hash_secret st job_id none = Except.ok job) ∧
    ((auth_guard hash_secret
        (mk_job hash_secret job_id ephemeral_user directory command
          secret).hashed_secret presented).isSome = true ↔
      ∃ s, secret = some s ∧ s ≠ "" ∧
        (py_truthy presented = false ∨
          hash_secret (presented.getD "") ≠ hash_secret s)) := by
  refine ⟨?_, ?_, ?_, ?_, ?_⟩
  · simp [mk_job]
  · simp [mk_job]
  · simp [mk_job, auth_guard, py_truthy]
  · intro st job hf hns
    simp [get_job_route, hf, auth_guard, hns, py_truthy]
  · cases secret with
    | none => simp [mk_job, auth_guard, py_truthy]
    | some s =>
      by_cases hs : s = ""
      · subst hs
        simp [mk_job, auth_guard, py_truthy]
      · have hts : py_truthy (some (hash_secret s)) = true := by
          simp [py_truthy, hh s]
        simp only [mk_job, if_neg hs, auth_guard, hts, if_pos rfl]
        by_cases hp : py_truthy presented = false
        · simp [hp, hs]
        · have hp1 : py_truthy presented = true := by
            revert hp
            cases py_truthy presented <;> simp
          by_cases hne : hash_secret (presented.getD "") = hash_secret s
          · simp [hp1, hne, hs]
          · simp [hp1, hne, hs]

/-- Witness for `empty_secret_no_auth` with the concrete injective-style
hash `"#" ++ s`: the guard of an empty-string-secret job passes whatever
is presented, and for a job with secret `"tok"` the failure condition is
the stated one. -/
theorem empty_secret_no_auth_witness :
    auth_guard (fun s => "#" ++ s)
        (mk_job (fun s => "#" ++ s) "j9" "u9" "d9" ["echo"]
          (some "")).hashed_secret (some "anything") = none ∧
    ((auth_guard (fun s => "#" ++ s)
        (mk_job (fun s => "#" ++ s) "j9" "u9" "d9" ["echo"]
          (some "tok")).hashed_secret none).isSome = true ↔
      ∃ s, (some "tok" = some s) ∧ s ≠ "" ∧
        (py_truthy none = false ∨
          (fun s => "#" ++ s) ((none : Option String).getD "") ≠
            (fun s => "#" ++ s) s)) := by
  have hh : ∀ s : String, (fun s => "#" ++ s) s ≠ "" := by
    intro s h
    have hl := congrArg String.length h
    rw [String.length_append] at hl
    have h1 : "#".length = 1 := rfl
    have h0 : "".length = 0 := rfl
    omega
  have h1 := empty_secret_no_auth (fun s => "#" ++ s) hh "j9" "u9" "d9" ["echo"]
    (some "tok") (some "anything")
  have h2 := empty_secret_no_auth (fun s => "#" ++ s) hh "j9" "u9" "d9" ["echo"]
    (some "tok") none
  exact ⟨h1.2.2.1, h2.2.2.2.2⟩

end Sandrun
